import Mathlib

/-!
Verification of the Personal-Finance backend (AWS SAM, JavaScript).

Each Lambda handler of the repository is embedded shallowly as a pure Lean
function over an explicit state: the DynamoDB tables become lists of records,
`new Date().toISOString()` becomes a `now : String` parameter, `uuidv4()`
becomes a fresh-identifier parameter, and the DocumentClient operations
(get / put / conditional update / delete / scan-with-filter) become list
operations with the DynamoDB failure modes (`ConditionalCheckFailedException`,
invalid-parameter errors) made explicit.  JavaScript numbers are modelled as
rationals (`Rat`); JSON request bodies are modelled as records of optional
typed fields plus the list of any further (unknown) keys, which is what Joi
object validation inspects.
-/

set_option autoImplicit false

namespace Finance

/-! ## Analytics aggregation engine (src analytics Lambda, pure functions) -/

/-- The UTC calendar fields extracted from a transaction's date, i.e. the
result of `new Date(t.Date)` followed by `getFullYear()` / `getMonth() + 1`
(the Lambda runtime operates with a UTC clock, so the local-time getters read
the UTC calendar). -/
structure JsDate where
  year : Nat
  month : Nat
  deriving DecidableEq

/-- A row of the transaction table as consumed by the analytics engine. -/
structure Txn where
  UserID : String
  Date : JsDate
  Amount : Rat
  Category : String
  deriving DecidableEq

/-- Result shape of `analyzeIncomeVsExpenses`. -/
structure IncomeExpenses where
  income : Rat
  expenses : Rat
  netIncome : Rat
  deriving DecidableEq

/-- `Math.abs` on a (non-NaN) number. -/
def jsMathAbs (q : Rat) : Rat := if q < 0 then -q else q

theorem jsMathAbs_eq_abs (q : Rat) : jsMathAbs q = |q| := by
  unfold jsMathAbs
  rcases lt_or_ge q 0 with h | h
  · rw [if_pos h, abs_of_neg h]
  · rw [if_neg (not_lt_of_ge h), abs_of_nonneg h]

/-- `analyzeIncomeVsExpenses`: income is the reduce-sum over the
`t.Amount > 0` filter, expenses the reduce-sum of `Math.abs(t.Amount)` over
the `t.Amount < 0` filter, and `netIncome` is their difference. -/
def analyzeIncomeVsExpenses (transactions : List Txn) : IncomeExpenses :=
  let income := (transactions.filter (fun t => 0 < t.Amount)).foldl
    (fun sum t => sum + t.Amount) 0
  let expenses := (transactions.filter (fun t => t.Amount < 0)).foldl
    (fun sum t => sum + jsMathAbs t.Amount) 0
  ⟨income, expenses, income - expenses⟩

/-- Sum of the positive amounts of a transaction list. -/
def sumPos (l : List Txn) : Rat :=
  ((l.filter (fun t => 0 < t.Amount)).map (fun t => t.Amount)).sum

/-- Sum of the absolute values of the negative amounts of a transaction list. -/
def sumNegAbs (l : List Txn) : Rat :=
  ((l.filter (fun t => t.Amount < 0)).map (fun t => |t.Amount|)).sum

theorem foldl_add_map {α : Type} (f : α → Rat) (l : List α) (a : Rat) :
    l.foldl (fun sum t => sum + f t) a = a + (l.map f).sum := by
  induction l generalizing a with
  | nil => simp
  | cons x xs ih => simp [ih, add_assoc]

theorem analyzeIncomeVsExpenses_eq (l : List Txn) :
    analyzeIncomeVsExpenses l = ⟨sumPos l, sumNegAbs l, sumPos l - sumNegAbs l⟩ := by
  simp [analyzeIncomeVsExpenses, sumPos, sumNegAbs, foldl_add_map, jsMathAbs_eq_abs]

theorem sumPos_perm {l l' : List Txn} (h : l.Perm l') : sumPos l = sumPos l' := by
  unfold sumPos
  exact ((h.filter _).map _).sum_eq

theorem sumNegAbs_perm {l l' : List Txn} (h : l.Perm l') : sumNegAbs l = sumNegAbs l' := by
  unfold sumNegAbs
  exact ((h.filter _).map _).sum_eq

/-- Claim C5: for every collection of transactions, `analyzeIncomeVsExpenses`
returns income equal to the sum of the amounts greater than zero, expenses
equal to the sum of the absolute values of the amounts less than zero, and a
net value equal to income minus expenses; the result is invariant under any
permutation of the collection, and a transaction of amount zero contributes
to neither total. -/
theorem claim_C5_income_vs_expenses (l l' : List Txn) (t : Txn)
    (hp : l.Perm l') (h0 : t.Amount = 0) :
    analyzeIncomeVsExpenses l = ⟨sumPos l, sumNegAbs l, sumPos l - sumNegAbs l⟩
    ∧ analyzeIncomeVsExpenses l = analyzeIncomeVsExpenses l'
    ∧ analyzeIncomeVsExpenses (t :: l) = analyzeIncomeVsExpenses l := by
  refine ⟨analyzeIncomeVsExpenses_eq l, ?_, ?_⟩
  · rw [analyzeIncomeVsExpenses_eq, analyzeIncomeVsExpenses_eq,
      sumPos_perm hp, sumNegAbs_perm hp]
  · rw [analyzeIncomeVsExpenses_eq, analyzeIncomeVsExpenses_eq]
    have hpos : sumPos (t :: l) = sumPos l := by
      simp [sumPos, List.filter_cons, h0]
    have hneg : sumNegAbs (t :: l) = sumNegAbs l := by
      simp [sumNegAbs, List.filter_cons, h0]
    rw [hpos, hneg]

theorem claim_C5_witness :
    analyzeIncomeVsExpenses
        [⟨"u1", ⟨2023, 1⟩, 1000, "Income"⟩, ⟨"u1", ⟨2023, 1⟩, -500, "Food"⟩]
      = ⟨1000, 500, 500⟩
    ∧ analyzeIncomeVsExpenses
        [⟨"u1", ⟨2023, 1⟩, 1000, "Income"⟩, ⟨"u1", ⟨2023, 1⟩, -500, "Food"⟩]
      = analyzeIncomeVsExpenses
        [⟨"u1", ⟨2023, 1⟩, -500, "Food"⟩, ⟨"u1", ⟨2023, 1⟩, 1000, "Income"⟩] := by
  have h := claim_C5_income_vs_expenses
    [⟨"u1", ⟨2023, 1⟩, 1000, "Income"⟩, ⟨"u1", ⟨2023, 1⟩, -500, "Food"⟩]
    [⟨"u1", ⟨2023, 1⟩, -500, "Food"⟩, ⟨"u1", ⟨2023, 1⟩, 1000, "Income"⟩]
    ⟨"u1", ⟨2023, 1⟩, 0, "Misc"⟩
    (List.Perm.swap _ _ _) rfl
  refine ⟨?_, h.2.1⟩
  rw [h.1]
  norm_num [sumPos, sumNegAbs]

/-! ### Grouping by string key (the `reduce` accumulation into a JS object)

A JS object used as an accumulator keeps its string keys in insertion order;
`totals[k] = ...` updates in place when the key exists and appends otherwise.
`bump k d f` embeds `if (!totals[k]) totals[k] = d; totals[k] = f(totals[k])`. -/

def bump {β : Type} (k : String) (d : β) (f : β → β) :
    List (String × β) → List (String × β)
  | [] => [(k, f d)]
  | (k', v) :: rest =>
    if k' = k then (k', f v) :: rest else (k', v) :: bump k d f rest

/-- Property lookup `totals[k]` on the embedded accumulator object. -/
def assocFind? {β : Type} (k : String) : List (String × β) → Option β
  | [] => none
  | (k', v) :: rest => if k' = k then some v else assocFind? k rest

/-- `transactions.reduce((totals, t) => ..., {})`: fold the rows into an
insertion-ordered keyed accumulator. -/
def groupFold {α β : Type} (key : α → String) (d : β) (upd : α → β → β)
    (ts : List α) : List (String × β) :=
  ts.foldl (fun acc t => bump (key t) d (upd t) acc) []

theorem assocFind?_bump_eq {β : Type} (k : String) (d : β) (f : β → β)
    (l : List (String × β)) :
    assocFind? k (bump k d f l) = some (f ((assocFind? k l).getD d)) := by
  induction l with
  | nil => simp [bump, assocFind?]
  | cons p rest ih =>
    obtain ⟨k', v⟩ := p
    by_cases h : k' = k
    · simp [bump, assocFind?, h]
    · simp [bump, assocFind?, h, ih]

theorem assocFind?_bump_ne {β : Type} {k k' : String} (d : β) (f : β → β)
    (l : List (String × β)) (h : k' ≠ k) :
    assocFind? k (bump k' d f l) = assocFind? k l := by
  induction l with
  | nil => simp [bump, assocFind?, h]
  | cons p rest ih =>
    obtain ⟨k'', v⟩ := p
    have h4 : ¬k = k' := fun hh => h hh.symm
    by_cases h2 : k'' = k'
    · subst h2
      simp [bump, assocFind?, h, h4]
    · by_cases h3 : k'' = k <;> simp [bump, assocFind?, h2, h3, h4, ih]

theorem keys_bump {β : Type} (k : String) (d : β) (f : β → β)
    (l : List (String × β)) :
    (bump k d f l).map Prod.fst =
      if k ∈ l.map Prod.fst then l.map Prod.fst else l.map Prod.fst ++ [k] := by
  induction l with
  | nil => simp [bump]
  | cons p rest ih =>
    obtain ⟨k', v⟩ := p
    by_cases h : k' = k
    · simp [bump, h]
    · have h' : ¬k = k' := fun hh => h hh.symm
      by_cases hm : k ∈ rest.map Prod.fst <;>
        simp [bump, h, h', hm, ih]

theorem nodup_keys_bump {β : Type} (k : String) (d : β) (f : β → β)
    {l : List (String × β)} (h : (l.map Prod.fst).Nodup) :
    ((bump k d f l).map Prod.fst).Nodup := by
  rw [keys_bump]
  by_cases hm : k ∈ l.map Prod.fst
  · simpa [hm] using h
  · simp only [hm, if_false]
    rw [List.nodup_append]
    refine ⟨h, List.nodup_singleton k, ?_⟩
    intro a ha hak
    rw [List.mem_singleton] at hak
    subst hak
    exact hm ha

theorem nodup_keys_groupFold {α β : Type} (key : α → String) (d : β)
    (upd : α → β → β) (ts : List α) :
    ((groupFold key d upd ts).map Prod.fst).Nodup := by
  suffices h : ∀ acc : List (String × β), (acc.map Prod.fst).Nodup →
      ((ts.foldl (fun acc t => bump (key t) d (upd t) acc) acc).map Prod.fst).Nodup by
    exact h [] (by simp)
  induction ts with
  | nil => intro acc hacc; simpa using hacc
  | cons t rest ih =>
    intro acc hacc
    exact ih _ (nodup_keys_bump _ _ _ hacc)

theorem mem_keys_iff_assocFind? {β : Type} (k : String) (l : List (String × β)) :
    k ∈ l.map Prod.fst ↔ (assocFind? k l).isSome := by
  induction l with
  | nil => simp [assocFind?]
  | cons p rest ih =>
    obtain ⟨k', v⟩ := p
    by_cases h : k' = k
    · simp [assocFind?, h]
    · have h' : ¬k = k' := fun hh => h hh.symm
      simp [assocFind?, h, h', ih]

theorem assocFind?_of_mem {β : Type} {l : List (String × β)} {p : String × β}
    (hnd : (l.map Prod.fst).Nodup) (hm : p ∈ l) :
    assocFind? p.1 l = some p.2 := by
  induction l with
  | nil => simp at hm
  | cons q rest ih =>
    obtain ⟨k', v⟩ := q
    rcases List.mem_cons.mp hm with h | h
    · subst h
      simp [assocFind?]
    · have hk : k' ≠ p.1 := by
        intro hk
        have : p.1 ∈ rest.map Prod.fst := List.mem_map_of_mem Prod.fst h
        rw [← hk] at this
        exact (List.nodup_cons.mp (by simpa using hnd)).1 this
      simp only [assocFind?, hk, if_false]
      exact ih (List.nodup_cons.mp (by simpa using hnd)).2 h

theorem groupFold_append {α β : Type} (key : α → String) (d : β)
    (upd : α → β → β) (ts : List α) (t : α) :
    groupFold key d upd (ts ++ [t]) = bump (key t) d (upd t) (groupFold key d upd ts) := by
  simp [groupFold, List.foldl_append]

theorem assocFind?_groupFold {α β : Type} (key : α → String) (d : β)
    (upd : α → β → β) (ts : List α) (k : String) :
    assocFind? k (groupFold key d upd ts) =
      if k ∈ ts.map key then
        some ((ts.filter (fun t => key t = k)).foldl (fun b t => upd t b) d)
      else none := by
  induction ts using List.reverseRecOn with
  | nil => simp [groupFold, assocFind?]
  | append_singleton ts t ih =>
    rw [groupFold_append]
    by_cases hk : key t = k
    · rw [hk, assocFind?_bump_eq, ih]
      by_cases hm : k ∈ ts.map key
      · simp [hm, List.filter_append, List.foldl_append, hk]
      · have hf : ts.filter (fun t => key t = k) = [] := by
          rw [List.filter_eq_nil_iff]
          intro a ha hka
          exact hm (by
            rw [← of_decide_eq_true hka]
            exact List.mem_map_of_mem key ha)
        simp [hm, hk, List.filter_append, hf]
    · rw [assocFind?_bump_ne _ _ _ hk, ih]
      have hk' : ¬k = key t := fun hh => hk hh.symm
      by_cases hm : k ∈ ts.map key <;>
        simp [hm, hk, hk', List.filter_append]

/-! ### MonthlyTrend -/

/-- `String(n).padStart(2, "0")`. -/
def pad2 (n : Nat) : String := if n < 10 then "0" ++ toString n else toString n

/-- The `"YYYY-MM"` bucket key built from the extracted UTC calendar fields. -/
def monthKey (d : JsDate) : String := toString d.year ++ "-" ++ pad2 d.month

/-- One `{income, expenses}` bucket of the monthly trend. -/
structure MonthBucket where
  income : Rat
  expenses : Rat
  deriving DecidableEq

/-- The per-transaction bucket update: positive amounts add to income, all
other amounts add their absolute value to expenses (a zero amount adds zero). -/
def trendUpd (t : Txn) (b : MonthBucket) : MonthBucket :=
  if 0 < t.Amount then ⟨b.income + t.Amount, b.expenses⟩
  else ⟨b.income, b.expenses + jsMathAbs t.Amount⟩

/-- Comparison `a[0].localeCompare(b[0]) <= 0` used to sort the trend entries. -/
def keyLE {β : Type} (a b : String × β) : Prop := a.1 ≤ b.1

instance {β : Type} : DecidableRel (keyLE (β := β)) :=
  fun a b => inferInstanceAs (Decidable (a.1 ≤ b.1))

instance {β : Type} : IsTotal (String × β) keyLE := ⟨fun a b => le_total a.1 b.1⟩

instance {β : Type} : IsTrans (String × β) keyLE := ⟨fun _ _ _ h1 h2 => le_trans h1 h2⟩

/-- `analyzeMonthlyTrend`: group by the `"YYYY-MM"` key, then sort the
entries ascending by key. (The final JS `.map` only reshapes each pair into a
`{month, income, expenses}` object; the pair representation is kept.) -/
def analyzeMonthlyTrend (transactions : List Txn) : List (String × MonthBucket) :=
  let monthlyTotals := groupFold (fun t => monthKey t.Date) ⟨0, 0⟩ trendUpd transactions
  monthlyTotals.insertionSort keyLE

theorem trendUpd_foldl (l : List Txn) (i e : Rat) :
    l.foldl (fun b t => trendUpd t b) ⟨i, e⟩ = ⟨i + sumPos l, e + sumNegAbs l⟩ := by
  induction l generalizing i e with
  | nil => simp [sumPos, sumNegAbs]
  | cons t rest ih =>
    rw [List.foldl_cons]
    rcases lt_trichotomy t.Amount 0 with hlt | heq | hgt
    · have hnp : ¬0 < t.Amount := not_lt_of_gt hlt
      have hstep : trendUpd t ⟨i, e⟩ = ⟨i, e + |t.Amount|⟩ := by
        simp [trendUpd, hnp, jsMathAbs_eq_abs]
      rw [hstep, ih]
      simp [sumPos, sumNegAbs, List.filter_cons, hnp, hlt, add_assoc]
    · have hnp : ¬0 < t.Amount := by rw [heq]; exact lt_irrefl 0
      have hstep : trendUpd t ⟨i, e⟩ = ⟨i, e⟩ := by
        simp [trendUpd, hnp, heq, jsMathAbs]
      rw [hstep, ih]
      simp [sumPos, sumNegAbs, List.filter_cons, hnp, heq]
    · have hstep : trendUpd t ⟨i, e⟩ = ⟨i + t.Amount, e⟩ := by simp [trendUpd, hgt]
      rw [hstep, ih]
      simp [sumPos, sumNegAbs, List.filter_cons, hgt, not_lt_of_gt hgt, add_assoc]

/-- Claim C4: `analyzeMonthlyTrend` buckets every transaction under the
`"YYYY-MM"` key of its UTC calendar date (zero-padded two-digit month), the
output keys are strictly lexicographically increasing (hence duplicate-free),
and each bucket carries the sum of the positive amounts as income and the sum
of the absolute values of the negative amounts as expenses. -/
theorem claim_C4_monthly_trend (ts : List Txn) :
    ((analyzeMonthlyTrend ts).Pairwise (fun a b => a.1 < b.1))
    ∧ (∀ t ∈ ts, monthKey t.Date ∈ (analyzeMonthlyTrend ts).map Prod.fst)
    ∧ (∀ p ∈ analyzeMonthlyTrend ts,
        p.2.income = sumPos (ts.filter (fun t => monthKey t.Date = p.1))
        ∧ p.2.expenses = sumNegAbs (ts.filter (fun t => monthKey t.Date = p.1))) := by
  have hperm : (analyzeMonthlyTrend ts).Perm
      (groupFold (fun t => monthKey t.Date) ⟨0, 0⟩ trendUpd ts) :=
    List.perm_insertionSort keyLE _
  have hnodupG := nodup_keys_groupFold (fun t : Txn => monthKey t.Date)
    (⟨0, 0⟩ : MonthBucket) trendUpd ts
  have hnodup : ((analyzeMonthlyTrend ts).map Prod.fst).Nodup :=
    ((hperm.map Prod.fst).nodup_iff).mpr hnodupG
  refine ⟨?_, ?_, ?_⟩
  · have hs : (analyzeMonthlyTrend ts).Pairwise keyLE :=
      List.sorted_insertionSort keyLE _
    have hne : (analyzeMonthlyTrend ts).Pairwise (fun a b => a.1 ≠ b.1) :=
      (List.pairwise_map).mp hnodup
    exact (hs.and hne).imp (fun h => lt_of_le_of_ne h.1 h.2)
  · intro t ht
    have hmem : monthKey t.Date ∈ ts.map (fun t => monthKey t.Date) :=
      List.mem_map_of_mem _ ht
    have := assocFind?_groupFold (fun t : Txn => monthKey t.Date)
      (⟨0, 0⟩ : MonthBucket) trendUpd ts (monthKey t.Date)
    rw [if_pos hmem] at this
    have hk : monthKey t.Date ∈
        (groupFold (fun t => monthKey t.Date) ⟨0, 0⟩ trendUpd ts).map Prod.fst := by
      rw [mem_keys_iff_assocFind?, this]
      rfl
    exact ((hperm.map Prod.fst).mem_iff).mpr hk
  · intro p hp
    have hpG : p ∈ groupFold (fun t => monthKey t.Date) ⟨0, 0⟩ trendUpd ts :=
      hperm.mem_iff.mp hp
    have hfind := assocFind?_of_mem hnodupG hpG
    rw [assocFind?_groupFold] at hfind
    by_cases hm : p.1 ∈ ts.map (fun t => monthKey t.Date)
    · rw [if_pos hm] at hfind
      have hb : p.2 = (ts.filter (fun t => monthKey t.Date = p.1)).foldl
          (fun b t => trendUpd t b) ⟨0, 0⟩ := by
        injection hfind.symm
      rw [hb, trendUpd_foldl]
      exact ⟨by simp, by simp⟩
    · rw [if_neg hm] at hfind
      exact absurd hfind (by simp)

theorem claim_C4_witness :
    ((analyzeMonthlyTrend
        [⟨"u1", ⟨2023, 11⟩, -300, "Transport"⟩, ⟨"u1", ⟨2023, 1⟩, 1000, "Income"⟩]).Pairwise
      (fun a b => a.1 < b.1))
    ∧ monthKey ⟨2023, 1⟩ ∈ (analyzeMonthlyTrend
        [⟨"u1", ⟨2023, 11⟩, -300, "Transport"⟩, ⟨"u1", ⟨2023, 1⟩, 1000, "Income"⟩]).map Prod.fst := by
  have h := claim_C4_monthly_trend
    [⟨"u1", ⟨2023, 11⟩, -300, "Transport"⟩, ⟨"u1", ⟨2023, 1⟩, 1000, "Income"⟩]
  exact ⟨h.1, h.2.1 ⟨"u1", ⟨2023, 1⟩, 1000, "Income"⟩ (by simp)⟩

/-! ### TopCategories -/

/-- The JS comparator `(a, b) => b[1] - a[1]`, i.e. sort so that each entry's
total is at least the next one's (descending, ties allowed). -/
def totalGE (a b : String × Rat) : Prop := b.2 ≤ a.2

instance : DecidableRel totalGE := fun a b => inferInstanceAs (Decidable (b.2 ≤ a.2))

instance : IsTotal (String × Rat) totalGE := ⟨fun a b => le_total b.2 a.2⟩

instance : IsTrans (String × Rat) totalGE := ⟨fun _ _ _ h1 h2 => le_trans h2 h1⟩

/-- `analyzeTopCategories`: accumulate `Math.abs(t.Amount)` per category
(all signs), sort descending by total, keep the first five entries. -/
def analyzeTopCategories (transactions : List Txn) : List (String × Rat) :=
  let categoryTotals := groupFold (fun t => t.Category) 0
    (fun t total => total + jsMathAbs t.Amount) transactions
  (categoryTotals.insertionSort totalGE).take 5

/-- Sum of the absolute amounts of a transaction list. -/
def sumAbs (l : List Txn) : Rat := (l.map (fun t => |t.Amount|)).sum

theorem sumAbs_foldl (l : List Txn) (a : Rat) :
    l.foldl (fun total t => total + jsMathAbs t.Amount) a = a + sumAbs l := by
  simpa [sumAbs, jsMathAbs_eq_abs] using foldl_add_map (fun t : Txn => jsMathAbs t.Amount) l a

theorem topCategories_example_eval :
    analyzeTopCategories [⟨"u1", ⟨2023, 1⟩, 5, "A"⟩, ⟨"u1", ⟨2023, 1⟩, -5, "B"⟩]
      = [("A", 5), ("B", 5)] := by
  norm_num [analyzeTopCategories, groupFold, bump, jsMathAbs,
    List.insertionSort, List.orderedInsert, totalGE]

/-- Claim C6 as stated is false: with two categories of equal total the sorted
totals are not strictly descending.  On `[(A, 5), (B, 5)]` the result has two
entries with equal totals. -/
theorem claim_C6_counterexample :
    ¬ ((analyzeTopCategories
        [⟨"u1", ⟨2023, 1⟩, 5, "A"⟩, ⟨"u1", ⟨2023, 1⟩, -5, "B"⟩]).Pairwise
      (fun a b => b.2 < a.2)) := by
  intro h
  have hout := topCategories_example_eval
  rw [hout] at h
  have h2 := (List.pairwise_cons.mp h).1 ("B", 5) (by simp)
  exact absurd h2 (by norm_num)

/-- Claim C6 (amended): `analyzeTopCategories` returns at most 5 entries, the
totals are descending with ties allowed (each entry's total is greater than or
equal to the next entry's), and each entry's total is the sum of the absolute
amounts of the transactions of that category regardless of sign. -/
theorem claim_C6_amended (ts : List Txn) :
    (analyzeTopCategories ts).length ≤ 5
    ∧ ((analyzeTopCategories ts).Pairwise (fun a b => b.2 ≤ a.2))
    ∧ (∀ p ∈ analyzeTopCategories ts,
        p.2 = sumAbs (ts.filter (fun t => t.Category = p.1))) := by
  have hperm : ((groupFold (fun t : Txn => t.Category) 0
        (fun t total => total + jsMathAbs t.Amount) ts).insertionSort totalGE).Perm
      (groupFold (fun t => t.Category) 0 (fun t total => total + jsMathAbs t.Amount) ts) :=
    List.perm_insertionSort totalGE _
  have hnodupG := nodup_keys_groupFold (fun t : Txn => t.Category) (0 : Rat)
    (fun t total => total + jsMathAbs t.Amount) ts
  refine ⟨?_, ?_, ?_⟩
  · exact List.length_take_le 5 _
  · have hs := List.sorted_insertionSort totalGE
      (groupFold (fun t : Txn => t.Category) 0 (fun t total => total + jsMathAbs t.Amount) ts)
    have hsub : List.Sublist (analyzeTopCategories ts)
        ((groupFold (fun t : Txn => t.Category) 0
          (fun t total => total + jsMathAbs t.Amount) ts).insertionSort totalGE) := by
      simpa [analyzeTopCategories] using List.take_sublist 5 _
    exact List.Pairwise.sublist hsub hs
  · intro p hp
    have hpS : p ∈ (groupFold (fun t : Txn => t.Category) 0
        (fun t total => total + jsMathAbs t.Amount) ts).insertionSort totalGE :=
      List.mem_of_mem_take hp
    have hpG : p ∈ groupFold (fun t => t.Category) 0
        (fun t total => total + jsMathAbs t.Amount) ts := hperm.mem_iff.mp hpS
    have hfind := assocFind?_of_mem hnodupG hpG
    rw [assocFind?_groupFold] at hfind
    by_cases hm : p.1 ∈ ts.map (fun t => t.Category)
    · rw [if_pos hm] at hfind
      have hb : p.2 = (ts.filter (fun t => t.Category = p.1)).foldl
          (fun total t => total + jsMathAbs t.Amount) 0 := by
        injection hfind.symm
      rw [hb, sumAbs_foldl]
      simp
    · rw [if_neg hm] at hfind
      exact absurd hfind (by simp)

theorem claim_C6_witness :
    (analyzeTopCategories [⟨"u1", ⟨2023, 1⟩, 5, "A"⟩, ⟨"u1", ⟨2023, 1⟩, -5, "B"⟩]).length ≤ 5
    ∧ ((5 : Rat) = sumAbs ([⟨"u1", ⟨2023, 1⟩, 5, "A"⟩, ⟨"u1", ⟨2023, 1⟩, -5, "B"⟩].filter
        (fun t : Txn => t.Category = "A"))) := by
  have h := claim_C6_amended [⟨"u1", ⟨2023, 1⟩, 5, "A"⟩, ⟨"u1", ⟨2023, 1⟩, -5, "B"⟩]
  refine ⟨h.1, ?_⟩
  have hmem : (("A", (5 : Rat)) : String × Rat) ∈ analyzeTopCategories
      [⟨"u1", ⟨2023, 1⟩, 5, "A"⟩, ⟨"u1", ⟨2023, 1⟩, -5, "B"⟩] := by
    rw [topCategories_example_eval]
    simp
  exact h.2.2 ("A", 5) hmem

/-! ## Account Lambda (optimistic concurrency, sanitization, audit)

The request body parsed from JSON is a record of the three schema fields, the
`Version` key (read by `updateAccount` as the expected version), and the names
of any further keys; Joi object validation rejects keys outside the schema. -/

namespace Account

/-- The character class of the JS regex `\s` (ECMAScript WhiteSpace and
LineTerminator set). -/
def jsRegexSpace (c : Char) : Bool :=
  c = ' ' || c = '\t' || c = '\n' || c = '\x0b' || c = '\x0c' || c = '\r' ||
  c.toNat = 0xA0 || c.toNat = 0x1680 ||
  (0x2000 ≤ c.toNat && c.toNat ≤ 0x200A) ||
  c.toNat = 0x2028 || c.toNat = 0x2029 || c.toNat = 0x202F ||
  c.toNat = 0x205F || c.toNat = 0x3000 || c.toNat = 0xFEFF

/-- The character class `[\w\s.-]` of `sanitizeInput` (word characters,
whitespace, dot, dash); `replace(/[^\w\s.-]/gi, "")` deletes the complement. -/
def jsWordSpaceDotDash (c : Char) : Bool :=
  c.isAlphanum || c = '_' || jsRegexSpace c || c = '.' || c = '-'

/-- `input.replace(/[^\w\s.-]/gi, "")` on a string: keep exactly the
characters of the allowed class. -/
def sanitizeInput (input : String) : String :=
  String.mk (input.data.filter jsWordSpaceDotDash)

/-- A stored account item. -/
structure AccountRec where
  AccountID : String
  UserID : String
  AccountName : String
  Balance : Rat
  «Type» : String
  IsActive : Bool
  Version : Rat
  CreatedAt : String
  UpdatedAt : String
  deriving DecidableEq

/-- A stored audit item (the free-form `Details` payload is not modelled; no
claim inspects it). -/
structure AuditRec where
  AuditID : String
  UserID : String
  Action : String
  Timestamp : String
  deriving DecidableEq

/-- The account table and the audit table. -/
structure Db where
  accounts : List AccountRec
  audit : List AuditRec
  deriving DecidableEq

/-- The parsed JSON body of a create/update request: the three fields of
`accountSchema`, the `Version` key when present, and any further keys. -/
structure AccountBody where
  AccountName : Option String
  Balance : Option Rat
  «Type» : Option String
  Version : Option Rat
  otherKeys : List String
  deriving DecidableEq

def accountTypes : List String := ["Checking", "Savings", "Credit Card", "Investment"]

/-- `accountSchema.validate(account)`: `AccountName` a required non-empty
string of at most 100 characters, `Balance` a required number, `Type` one of
the four enumerated values, and no key outside the schema (Joi objects forbid
unknown keys by default, so a `Version` key or any other extra key is an
error).  Returns the first failure message, `none` on success. -/
def accountSchemaValidate (b : AccountBody) : Option String :=
  match b.AccountName with
  | none => some "AccountName is required"
  | some name =>
    if name = "" then some "AccountName is not allowed to be empty"
    else if 100 < name.length then
      some "AccountName length must be less than or equal to 100 characters long"
    else
      match b.Balance with
      | none => some "Balance is required"
      | some _ =>
        match b.«Type» with
        | none => some "Type is required"
        | some ty =>
          if ty ∈ accountTypes then
            if b.Version.isSome then some "Version is not allowed"
            else
              match b.otherKeys with
              | [] => none
              | k :: _ => some (k ++ " is not allowed")
          else some "Type must be one of Checking, Savings, Credit Card, Investment"

/-- Response bodies produced by the account handler (`JSON.stringify` of the
respective objects; the constant CORS headers are not modelled). -/
inductive ResBody where
  | msg (message : String)
  | accountsPage (accounts : List AccountRec) (nextPageKey : Option Nat)
  | item (account : AccountRec)
  | accountMsg (message : String) (account : AccountRec)
  deriving DecidableEq

structure Response where
  statusCode : Nat
  body : ResBody
  deriving DecidableEq

def createResponse (statusCode : Nat) (body : ResBody) : Response := ⟨statusCode, body⟩

/-- `logAuditEvent`: an unconditional put of a fresh-keyed item, i.e. an
append to the audit table. -/
def logAuditEvent (db : Db) (auditId userId action now : String) : Db :=
  { db with audit := db.audit ++ [⟨auditId, userId, action, now⟩] }

/-- DynamoDB `put`: replace the item with the same key, else add it. -/
def putItem (items : List AccountRec) (item : AccountRec) : List AccountRec :=
  if items.any (fun r => r.AccountID = item.AccountID) then
    items.map (fun r => if r.AccountID = item.AccountID then item else r)
  else items ++ [item]

/-- `getAllAccounts`: scan with `UserID = :userId AND IsActive = :isActive`,
`Limit` applied to the scanned segment (DynamoDB applies `Limit` before the
filter), pagination cursor modelled as a resume index. -/
def getAllAccounts (userId : String) (lastEvaluatedKey : Option Nat) (limit : Nat)
    (db : Db) : Response :=
  let start := lastEvaluatedKey.getD 0
  let scanned := (db.accounts.drop start).take limit
  let items := scanned.filter (fun r => r.UserID = userId && r.IsActive)
  let nextPageKey := if limit < (db.accounts.drop start).length
    then some (start + limit) else none
  createResponse 200 (.accountsPage items nextPageKey)

/-- `getAccount`: get by key; 404 unless the item exists, belongs to the
caller and is active. -/
def getAccount (userId accountId : String) (db : Db) : Response :=
  match db.accounts.find? (fun r => r.AccountID = accountId) with
  | none => createResponse 404 (.msg "Account not found")
  | some item =>
    if item.UserID = userId ∧ item.IsActive = true then
      createResponse 200 (.item item)
    else createResponse 404 (.msg "Account not found")

/-- `createAccount`: validate, sanitize the name, put a fresh record with
`IsActive = true` and `Version = 1` and both timestamps set to now, append a
`CREATE_ACCOUNT` audit event, return 201. -/
def createAccount (userId : String) (account : AccountBody)
    (newId auditId now : String) (db : Db) : Response × Db :=
  match accountSchemaValidate account with
  | some e => (createResponse 400 (.msg e), db)
  | none =>
    let newAccount : AccountRec :=
      { AccountID := newId, UserID := userId,
        AccountName := sanitizeInput (account.AccountName.getD ""),
        Balance := account.Balance.getD 0,
        «Type» := account.«Type».getD "",
        IsActive := true, Version := 1, CreatedAt := now, UpdatedAt := now }
    let db1 : Db := { db with accounts := putItem db.accounts newAccount }
    let db2 := logAuditEvent db1 auditId userId "CREATE_ACCOUNT" now
    (createResponse 201 (.accountMsg "Account created successfully" newAccount), db2)

/-- DynamoDB failure modes surfaced to the account code: the conditional
check failing, or the request being rejected because `:version` is the
JavaScript `undefined` (the serialized request then lacks the expression
attribute value referenced by the `ConditionExpression`). -/
inductive DynErr where
  | conditionalCheckFailed
  | invalidParameter
  deriving DecidableEq

/-- The conditional `update` issued by `updateAccount`: applies only when the
item exists with `UserID = :userId AND IsActive = :isActive AND
Version = :version`, setting the three fields, `UpdatedAt`, and
`Version = Version + 1`. -/
def updateConditional (items : List AccountRec) (accountId userId name : String)
    (balance : Rat) (ty : String) (now : String) (version : Option Rat) :
    Except DynErr (AccountRec × List AccountRec) :=
  match version with
  | none => .error .invalidParameter
  | some v =>
    match items.find? (fun r => r.AccountID = accountId) with
    | none => .error .conditionalCheckFailed
    | some r =>
      if r.UserID = userId ∧ r.IsActive = true ∧ r.Version = v then
        let r' := { r with AccountName := name, Balance := balance, «Type» := ty,
                           UpdatedAt := now, Version := r.Version + 1 }
        .ok (r', items.map (fun x => if x.AccountID = accountId then r' else x))
      else .error .conditionalCheckFailed

/-- `updateAccount`: validate, sanitize, issue the conditional write with
`:version` read from the body's `Version` key; a conditional-check failure
becomes 409, any other store error is rethrown (`Except.error`). -/
def updateAccount (userId accountId : String) (account : AccountBody)
    (auditId now : String) (db : Db) : Except DynErr (Response × Db) :=
  match accountSchemaValidate account with
  | some e => .ok (createResponse 400 (.msg e), db)
  | none =>
    match updateConditional db.accounts accountId userId
        (sanitizeInput (account.AccountName.getD "")) (account.Balance.getD 0)
        (account.«Type».getD "") now account.Version with
    | .ok (r', accounts') =>
      let db1 : Db := { db with accounts := accounts' }
      let db2 := logAuditEvent db1 auditId userId "UPDATE_ACCOUNT" now
      .ok (createResponse 200 (.accountMsg "Account updated successfully" r'), db2)
    | .error .conditionalCheckFailed =>
      .ok (createResponse 409
        (.msg "Account was modified by another request. Please retry with the latest version."), db)
    | .error e => .error e

/-- `deleteAccount`: conditional soft delete (`UserID` match and currently
active), setting `IsActive = false`; a conditional-check failure becomes 404. -/
def deleteAccount (userId accountId auditId now : String) (db : Db) : Response × Db :=
  match db.accounts.find? (fun r => r.AccountID = accountId) with
  | none => (createResponse 404 (.msg "Account not found"), db)
  | some r =>
    if r.UserID = userId ∧ r.IsActive = true then
      let r' := { r with IsActive := false, UpdatedAt := now }
      let accounts' := db.accounts.map (fun x => if x.AccountID = accountId then r' else x)
      let db1 : Db := { db with accounts := accounts' }
      let db2 := logAuditEvent db1 auditId userId "DELETE_ACCOUNT" now
      (createResponse 200 (.msg "Account deleted successfully"), db2)
    else (createResponse 404 (.msg "Account not found"), db)

/-- The request shape consumed by the account handler. `identity` is
`requestContext.authorizer.claims.sub` when present. -/
structure Event where
  httpMethod : String
  path : String
  pathParameters : Option String
  queryLastEvaluatedKey : Option Nat
  queryLimit : Option Nat
  body : Option AccountBody
  identity : Option String

/-- The account Lambda handler: extract the caller identity (401 when
absent), dispatch on the HTTP method, fall back to 400 for other methods;
uncaught runtime errors (missing path parameter or body, rethrown store
errors) become 500. -/
def handler (event : Event) (newId auditId now : String) (db : Db) : Response × Db :=
  match event.identity with
  | none => (createResponse 401 (.msg "Unauthorized"), db)
  | some userId =>
    match event.httpMethod with
    | "GET" =>
      if event.path = "/account" then
        (getAllAccounts userId event.queryLastEvaluatedKey (event.queryLimit.getD 20) db, db)
      else
        match event.pathParameters with
        | none => (createResponse 500 (.msg "Internal server error"), db)
        | some accountId => (getAccount userId accountId db, db)
    | "POST" =>
      match event.body with
      | none => (createResponse 500 (.msg "Internal server error"), db)
      | some b => createAccount userId b newId auditId now db
    | "PUT" =>
      match event.pathParameters, event.body with
      | some accountId, some b =>
        match updateAccount userId accountId b auditId now db with
        | .ok rd => rd
        | .error _ => (createResponse 500 (.msg "Internal server error"), db)
      | _, _ => (createResponse 500 (.msg "Internal server error"), db)
    | "DELETE" =>
      match event.pathParameters with
      | none => (createResponse 500 (.msg "Internal server error"), db)
      | some accountId => deleteAccount userId accountId auditId now db
    | _ => (createResponse 400 (.msg "Unsupported HTTP method"), db)

theorem accountValidate_none_shape (b : AccountBody)
    (h : accountSchemaValidate b = none) :
    b.AccountName.isSome ∧ b.Balance.isSome ∧ b.«Type».isSome
    ∧ b.Version = none ∧ b.otherKeys = [] := by
  obtain ⟨an, ab, aty, av, ak⟩ := b
  cases an <;> cases ab <;> cases aty <;> cases av <;> cases ak <;>
    simp_all [accountSchemaValidate, ite_eq_iff]

/-- The record written by a validated `createAccount` call. -/
def newAccountOf (userId : String) (account : AccountBody) (newId now : String) :
    AccountRec :=
  { AccountID := newId, UserID := userId,
    AccountName := sanitizeInput (account.AccountName.getD ""),
    Balance := account.Balance.getD 0, «Type» := account.«Type».getD "",
    IsActive := true, Version := 1, CreatedAt := now, UpdatedAt := now }

theorem createAccount_validated (userId : String) (b : AccountBody)
    (newId auditId now : String) (db : Db)
    (h : accountSchemaValidate b = none) :
    createAccount userId b newId auditId now db
      = (createResponse 201
          (.accountMsg "Account created successfully" (newAccountOf userId b newId now)),
         logAuditEvent { db with accounts := putItem db.accounts (newAccountOf userId b newId now) }
           auditId userId "CREATE_ACCOUNT" now) := by
  simp [createAccount, newAccountOf, h]

/-- Claim C7: for every account create request whose payload passes schema
validation, `createAccount` returns 201 with a record whose `Version` is 1 and
`IsActive` is true and whose created/updated timestamps are set to now; the
record is put into the table and a `CREATE_ACCOUNT` audit event appended. -/
theorem claim_C7_create_account (userId : String) (b : AccountBody)
    (newId auditId now : String) (db : Db)
    (h : accountSchemaValidate b = none) :
    ∃ a : AccountRec,
      createAccount userId b newId auditId now db
        = (createResponse 201 (.accountMsg "Account created successfully" a),
           logAuditEvent { db with accounts := putItem db.accounts a }
             auditId userId "CREATE_ACCOUNT" now)
      ∧ a.Version = 1 ∧ a.IsActive = true ∧ a.CreatedAt = now ∧ a.UpdatedAt = now :=
  ⟨newAccountOf userId b newId now,
    createAccount_validated userId b newId auditId now db h, rfl, rfl, rfl, rfl⟩

theorem claim_C7_witness :
    ((createAccount "u1" ⟨some "Main", some 100, some "Savings", none, []⟩
        "a1" "ad1" "T0" ⟨[], []⟩).1).statusCode = 201 := by
  obtain ⟨a, heq, -, -, -, -⟩ := claim_C7_create_account "u1"
    ⟨some "Main", some 100, some "Savings", none, []⟩ "a1" "ad1" "T0" ⟨[], []⟩ rfl
  rw [heq]
  rfl

/-- Claim C9: a request body carrying a `Version` key (the only place
`updateAccount` reads the expected version from) or any other key outside the
three schema fields fails validation, so `updateAccount` returns 400 with the
store untouched; consequently a body that passes validation carries no
`Version` value. -/
theorem claim_C9_schema_rejects_version (b : AccountBody)
    (userId accountId auditId now : String) (db : Db)
    (hbad : b.Version.isSome = true ∨ b.otherKeys ≠ []) :
    (∃ e, accountSchemaValidate b = some e)
    ∧ (∃ e, updateAccount userId accountId b auditId now db
        = .ok (createResponse 400 (.msg e), db))
    ∧ (∀ b' : AccountBody, accountSchemaValidate b' = none → b'.Version = none) := by
  have hsome : ∃ e, accountSchemaValidate b = some e := by
    cases hv : accountSchemaValidate b with
    | some e => exact ⟨e, rfl⟩
    | none =>
      have hs := accountValidate_none_shape b hv
      rcases hbad with h1 | h1
      · rw [hs.2.2.2.1] at h1
        exact absurd h1 (by simp)
      · exact absurd hs.2.2.2.2 h1
  obtain ⟨e, he⟩ := hsome
  exact ⟨⟨e, he⟩, ⟨e, by simp [updateAccount, he]⟩,
    fun b' hv' => (accountValidate_none_shape b' hv').2.2.2.1⟩

theorem claim_C9_witness :
    ∃ e, updateAccount "u1" "a1" ⟨some "Main", some 150, some "Savings", some 1, []⟩
        "ad1" "T1" ⟨[], []⟩
      = .ok (createResponse 400 (.msg e), ⟨[], []⟩) :=
  (claim_C9_schema_rejects_version ⟨some "Main", some 150, some "Savings", some 1, []⟩
    "u1" "a1" "ad1" "T1" ⟨[], []⟩ (Or.inl rfl)).2.1

/-- Claim C10: a successful create stores the submitted `AccountName` with
every character outside the class `[\w\s.-]` removed (so a name containing
such a character is stored altered, never verbatim), while `Balance` and
`Type` are stored unchanged; the account update path never alters the store
(its conditional write is unreachable, see C1/C9). -/
theorem claim_C10_sanitization (userId : String) (b : AccountBody)
    (newId auditId accountId now : String) (db : Db) (nm : String) (bal : Rat)
    (ty : String) (hv : accountSchemaValidate b = none)
    (hn : b.AccountName = some nm) (hb : b.Balance = some bal)
    (ht : b.«Type» = some ty) :
    (∃ a rest, createAccount userId b newId auditId now db
        = (createResponse 201 (.accountMsg "Account created successfully" a), rest)
      ∧ a.AccountName = sanitizeInput nm ∧ a.Balance = bal ∧ a.«Type» = ty)
    ∧ ((∀ c ∈ nm.data, jsWordSpaceDotDash c = true) → sanitizeInput nm = nm)
    ∧ ((∃ c ∈ nm.data, jsWordSpaceDotDash c = false) → sanitizeInput nm ≠ nm)
    ∧ (∀ res, updateAccount userId accountId b auditId now db = .ok res →
        res.2 = db) := by
  refine ⟨?_, ?_, ?_, ?_⟩
  · exact ⟨newAccountOf userId b newId now, _,
      createAccount_validated userId b newId auditId now db hv,
      by simp [newAccountOf, hn], by simp [newAccountOf, hb], by simp [newAccountOf, ht]⟩
  · intro hall
    unfold sanitizeInput
    rw [List.filter_eq_self.mpr hall]
  · rintro ⟨c, hc, hcf⟩ heq
    have hdata : nm.data.filter jsWordSpaceDotDash = nm.data :=
      congrArg String.data heq
    have := List.filter_eq_self.mp hdata c hc
    rw [this] at hcf
    exact Bool.noConfusion hcf
  · intro res hres
    have hvn := (accountValidate_none_shape b hv).2.2.2.1
    simp [updateAccount, hv, updateConditional, hvn] at hres

theorem claim_C10_witness :
    sanitizeInput "A&B" = "AB" ∧ sanitizeInput "A&B" ≠ "A&B" := by
  have h := claim_C10_sanitization "u1" ⟨some "A&B", some 100, some "Savings", none, []⟩
    "a1" "ad1" "acc1" "T0" ⟨[], []⟩ "A&B" 100 "Savings" rfl rfl rfl rfl
  exact ⟨by decide, h.2.2.1 ⟨'&', by decide, by decide⟩⟩

/-- Claim C1 (the code contradicts it): the optimistic-concurrency update
protocol is unreachable.  `updateAccount` reads the expected version from the
body's `Version` key, but the schema rejects any body carrying that key, so
on a store holding the account (owner u1, active, version 1) the exact
success scenario of the specification — a PUT by u1 with matching
expectedVersion 1 — returns 400 with the store unchanged, and a PUT without
the key aborts with an invalid store parameter (`:version` undefined) and
returns 500; no update ever applies, increments the version, or yields the
409 conflict path. -/
theorem claim_C1_update_protocol_unreachable :
    (handler ⟨"PUT", "/account/a1", some "a1", none, none,
        some ⟨some "Main", some 150, some "Savings", some 1, []⟩, some "u1"⟩
        "n1" "ad1" "T1"
        ⟨[⟨"a1", "u1", "Main", 100, "Savings", true, 1, "T0", "T0"⟩], []⟩
      = (createResponse 400 (.msg "Version is not allowed"),
         ⟨[⟨"a1", "u1", "Main", 100, "Savings", true, 1, "T0", "T0"⟩], []⟩))
    ∧ (handler ⟨"PUT", "/account/a1", some "a1", none, none,
        some ⟨some "Main", some 150, some "Savings", none, []⟩, some "u1"⟩
        "n1" "ad1" "T1"
        ⟨[⟨"a1", "u1", "Main", 100, "Savings", true, 1, "T0", "T0"⟩], []⟩
      = (createResponse 500 (.msg "Internal server error"),
         ⟨[⟨"a1", "u1", "Main", 100, "Savings", true, 1, "T0", "T0"⟩], []⟩)) :=
  ⟨rfl, rfl⟩

end Account

/-- Model of the Joi `date().iso()` format check: `"YYYY-MM-DD"` digits with
an optional `T...` time suffix (calendar range checks are not modelled; no
claim depends on them). -/
def isIsoDateString (s : String) : Bool :=
  match s.data with
  | y1 :: y2 :: y3 :: y4 :: '-' :: m1 :: m2 :: '-' :: d1 :: d2 :: rest =>
    y1.isDigit && y2.isDigit && y3.isDigit && y4.isDigit &&
    m1.isDigit && m2.isDigit && d1.isDigit && d2.isDigit &&
    (rest.isEmpty || rest.headD ' ' = 'T')
  | _ => false

/-! ## Budget Lambda (src budget handler: no identity check, no owner filter) -/

namespace Budget

/-- A stored budget item.  `UserID` is optional because the handler's
unconditioned `update` upserts an item carrying only the three written
attributes when the key is absent. -/
structure BudgetRec where
  BudgetID : String
  UserID : Option String
  Category : String
  Amount : Rat
  Period : String
  deriving DecidableEq

/-- The parsed JSON body: the four schema fields (`UserID` is part of the
budget schema and supplied by the client) plus any further keys. -/
structure BudgetBody where
  UserID : Option String
  Category : Option String
  Amount : Option Rat
  Period : Option String
  otherKeys : List String
  deriving DecidableEq

/-- `budgetSchema.validate`: all four fields required, `Amount` positive,
`Period` in the enumeration, no unknown keys. -/
def budgetSchemaValidate (b : BudgetBody) : Option String :=
  match b.UserID with
  | none => some "UserID is required"
  | some u =>
    if u = "" then some "UserID is not allowed to be empty"
    else
      match b.Category with
      | none => some "Category is required"
      | some c =>
        if c = "" then some "Category is not allowed to be empty"
        else
          match b.Amount with
          | none => some "Amount is required"
          | some amt =>
            if amt ≤ 0 then some "Amount must be a positive number"
            else
              match b.Period with
              | none => some "Period is required"
              | some p =>
                if p = "weekly" ∨ p = "monthly" ∨ p = "yearly" then
                  match b.otherKeys with
                  | [] => none
                  | k :: _ => some (k ++ " is not allowed")
                else some "Period must be one of weekly, monthly, yearly"

inductive ResBody where
  | msg (message : String)
  | items (budgets : List BudgetRec)
  | item (budget : BudgetRec)
  | budgetMsg (message : String) (budget : BudgetRec)
  deriving DecidableEq

structure Response where
  statusCode : Nat
  body : ResBody
  deriving DecidableEq

def response (statusCode : Nat) (body : ResBody) : Response := ⟨statusCode, body⟩

/-- The request shape.  The handler never reads `identity`; the field is kept
because the request carries it. -/
structure Event where
  httpMethod : String
  path : String
  pathParameters : Option String
  body : Option BudgetBody
  identity : Option String

/-- The budget Lambda handler.  There is no identity extraction and no
ownership condition on any branch: the list branch is an unfiltered scan, the
get-one branch returns whatever item the key finds, the update is an
unconditioned upsert, the delete is unconditional. -/
def handler (event : Event) (newId : String) (db : List BudgetRec) :
    Response × List BudgetRec :=
  match event.httpMethod with
  | "GET" =>
    if event.path = "/budget" then (response 200 (.items db), db)
    else
      match event.pathParameters with
      | none => (response 500 (.msg "Internal server error"), db)
      | some budgetId =>
        match db.find? (fun r => r.BudgetID = budgetId) with
        | none => (response 404 (.msg "Budget not found"), db)
        | some item => (response 200 (.item item), db)
  | "POST" =>
    match event.body with
    | none => (response 500 (.msg "Internal server error"), db)
    | some b =>
      match budgetSchemaValidate b with
      | some e => (response 400 (.msg e), db)
      | none =>
        let budget : BudgetRec :=
          { BudgetID := newId, UserID := b.UserID, Category := b.Category.getD "",
            Amount := b.Amount.getD 0, Period := b.Period.getD "" }
        (response 201 (.budgetMsg "Budget created successfully" budget), db ++ [budget])
  | "PUT" =>
    match event.body with
    | none => (response 500 (.msg "Internal server error"), db)
    | some b =>
      match budgetSchemaValidate b with
      | some e => (response 400 (.msg e), db)
      | none =>
        match event.pathParameters with
        | none => (response 500 (.msg "Internal server error"), db)
        | some budgetId =>
          match db.find? (fun r => r.BudgetID = budgetId) with
          | some r =>
            let r' := { r with Category := b.Category.getD "",
                               Amount := b.Amount.getD 0, Period := b.Period.getD "" }
            (response 200 (.budgetMsg "Budget updated successfully" r'),
             db.map (fun x => if x.BudgetID = budgetId then r' else x))
          | none =>
            let r' : BudgetRec :=
              { BudgetID := budgetId, UserID := none, Category := b.Category.getD "",
                Amount := b.Amount.getD 0, Period := b.Period.getD "" }
            (response 200 (.budgetMsg "Budget updated successfully" r'), db ++ [r'])
  | "DELETE" =>
    match event.pathParameters with
    | none => (response 500 (.msg "Internal server error"), db)
    | some budgetId =>
      (response 200 (.msg "Budget deleted successfully"),
       db.filter (fun r => r.BudgetID ≠ budgetId))
  | _ => (response 400 (.msg "Unsupported HTTP method"), db)

end Budget

/-! ## Goal Lambda (src goal handler: same shape as the budget handler) -/

namespace Goal

structure GoalRec where
  GoalID : String
  UserID : Option String
  GoalName : String
  TargetAmount : Rat
  CurrentAmount : Rat
  Deadline : String
  deriving DecidableEq

structure GoalBody where
  UserID : Option String
  GoalName : Option String
  TargetAmount : Option Rat
  CurrentAmount : Option Rat
  Deadline : Option String
  otherKeys : List String
  deriving DecidableEq

/-- `goalSchema.validate`: all five fields required, `TargetAmount` positive,
`CurrentAmount` at least 0, `Deadline` an ISO date, no unknown keys. -/
def goalSchemaValidate (b : GoalBody) : Option String :=
  match b.UserID with
  | none => some "UserID is required"
  | some u =>
    if u = "" then some "UserID is not allowed to be empty"
    else
      match b.GoalName with
      | none => some "GoalName is required"
      | some n =>
        if n = "" then some "GoalName is not allowed to be empty"
        else
          match b.TargetAmount with
          | none => some "TargetAmount is required"
          | some tgt =>
            if tgt ≤ 0 then some "TargetAmount must be a positive number"
            else
              match b.CurrentAmount with
              | none => some "CurrentAmount is required"
              | some cur =>
                if cur < 0 then some "CurrentAmount must be greater than or equal to 0"
                else
                  match b.Deadline with
                  | none => some "Deadline is required"
                  | some d =>
                    if isIsoDateString d then
                      match b.otherKeys with
                      | [] => none
                      | k :: _ => some (k ++ " is not allowed")
                    else some "Deadline must be in ISO 8601 date format"

inductive ResBody where
  | msg (message : String)
  | items (goals : List GoalRec)
  | item (goal : GoalRec)
  | goalMsg (message : String) (goal : GoalRec)
  deriving DecidableEq

structure Response where
  statusCode : Nat
  body : ResBody
  deriving DecidableEq

def response (statusCode : Nat) (body : ResBody) : Response := ⟨statusCode, body⟩

structure Event where
  httpMethod : String
  path : String
  pathParameters : Option String
  body : Option GoalBody
  identity : Option String

/-- The goal Lambda handler: same structure as the budget handler — no
identity extraction, unfiltered list scan, unchecked get-one, unconditioned
upsert update, unconditional delete. -/
def handler (event : Event) (newId : String) (db : List GoalRec) :
    Response × List GoalRec :=
  match event.httpMethod with
  | "GET" =>
    if event.path = "/goal" then (response 200 (.items db), db)
    else
      match event.pathParameters with
      | none => (response 500 (.msg "Internal server error"), db)
      | some goalId =>
        match db.find? (fun r => r.GoalID = goalId) with
        | none => (response 404 (.msg "Goal not found"), db)
        | some item => (response 200 (.item item), db)
  | "POST" =>
    match event.body with
    | none => (response 500 (.msg "Internal server error"), db)
    | some b =>
      match goalSchemaValidate b with
      | some e => (response 400 (.msg e), db)
      | none =>
        let goal : GoalRec :=
          { GoalID := newId, UserID := b.UserID, GoalName := b.GoalName.getD "",
            TargetAmount := b.TargetAmount.getD 0, CurrentAmount := b.CurrentAmount.getD 0,
            Deadline := b.Deadline.getD "" }
        (response 201 (.goalMsg "Goal created successfully" goal), db ++ [goal])
  | "PUT" =>
    match event.body with
    | none => (response 500 (.msg "Internal server error"), db)
    | some b =>
      match goalSchemaValidate b with
      | some e => (response 400 (.msg e), db)
      | none =>
        match event.pathParameters with
        | none => (response 500 (.msg "Internal server error"), db)
        | some goalId =>
          match db.find? (fun r => r.GoalID = goalId) with
          | some r =>
            let r' := { r with GoalName := b.GoalName.getD "",
                               TargetAmount := b.TargetAmount.getD 0,
                               CurrentAmount := b.CurrentAmount.getD 0,
                               Deadline := b.Deadline.getD "" }
            (response 200 (.goalMsg "Goal updated successfully" r'),
             db.map (fun x => if x.GoalID = goalId then r' else x))
          | none =>
            let r' : GoalRec :=
              { GoalID := goalId, UserID := none, GoalName := b.GoalName.getD "",
                TargetAmount := b.TargetAmount.getD 0, CurrentAmount := b.CurrentAmount.getD 0,
                Deadline := b.Deadline.getD "" }
            (response 200 (.goalMsg "Goal updated successfully" r'), db ++ [r'])
  | "DELETE" =>
    match event.pathParameters with
    | none => (response 500 (.msg "Internal server error"), db)
    | some goalId =>
      (response 200 (.msg "Goal deleted successfully"),
       db.filter (fun r => r.GoalID ≠ goalId))
  | _ => (response 400 (.msg "Unsupported HTTP method"), db)

end Goal

/-! ## Transaction Lambda (src transaction handler) -/

namespace Transaction

/-- A stored transaction item. -/
structure TxnRow where
  TransactionID : String
  UserID : String
  AccountID : String
  Date : String
  Amount : Rat
  Category : String
  Description : Option String
  deriving DecidableEq

/-- The parsed JSON body.  The handler overwrites `transaction.UserID` with
the caller identity before validating, so `UserID` is not part of the body
model; any unknown key is recorded in `otherKeys`. -/
structure TxnBody where
  AccountID : Option String
  Date : Option String
  Amount : Option Rat
  Category : Option String
  Description : Option String
  otherKeys : List String
  deriving DecidableEq

/-- `transactionSchema.validate` after the handler set `UserID`: `AccountID`,
`Date` (ISO), `Amount`, `Category` required; `Description` optional and may
be empty; no unknown keys. -/
def transactionSchemaValidate (b : TxnBody) : Option String :=
  match b.AccountID with
  | none => some "AccountID is required"
  | some a =>
    if a = "" then some "AccountID is not allowed to be empty"
    else
      match b.Date with
      | none => some "Date is required"
      | some d =>
        if isIsoDateString d then
          match b.Amount with
          | none => some "Amount is required"
          | some _ =>
            match b.Category with
            | none => some "Category is required"
            | some c =>
              if c = "" then some "Category is not allowed to be empty"
              else
                match b.otherKeys with
                | [] => none
                | k :: _ => some (k ++ " is not allowed")
        else some "Date must be in ISO 8601 date format"

inductive ResBody where
  | msg (message : String)
  | items (transactions : List TxnRow)
  | item (transaction : TxnRow)
  | txnMsg (message : String) (transaction : TxnRow)
  deriving DecidableEq

structure Response where
  statusCode : Nat
  body : ResBody
  deriving DecidableEq

def response (statusCode : Nat) (body : ResBody) : Response := ⟨statusCode, body⟩

structure Event where
  httpMethod : String
  path : String
  pathParameters : Option String
  body : Option TxnBody
  identity : Option String

/-- The transaction Lambda handler.  `requestContext.authorizer.claims.sub`
is read before the `try` block, so a request without identity throws out of
the handler (`Except.error`: the invocation fails with no HTTP response).
The PUT branch builds its update request with a duplicated
`ExpressionAttributeValues` key; the second literal wins, so the values
referenced by the `UpdateExpression` are undefined and the store rejects the
request — the outer catch turns this into 500 whenever validation passed. -/
def handler (event : Event) (newId : String) (db : List TxnRow) :
    Except Unit (Response × List TxnRow) :=
  match event.identity with
  | none => .error ()
  | some userId =>
    .ok (match event.httpMethod with
    | "GET" =>
      if event.path = "/transaction" then
        (response 200 (.items (db.filter (fun r => r.UserID = userId))), db)
      else
        match event.pathParameters with
        | none => (response 500 (.msg "Internal server error"), db)
        | some transactionId =>
          match db.find? (fun r => r.TransactionID = transactionId) with
          | none => (response 404 (.msg "Transaction not found"), db)
          | some item =>
            if item.UserID = userId then (response 200 (.item item), db)
            else (response 404 (.msg "Transaction not found"), db)
    | "POST" =>
      match event.body with
      | none => (response 500 (.msg "Internal server error"), db)
      | some b =>
        match transactionSchemaValidate b with
        | some e => (response 400 (.msg e), db)
        | none =>
          let transaction : TxnRow :=
            { TransactionID := newId, UserID := userId,
              AccountID := b.AccountID.getD "", Date := b.Date.getD "",
              Amount := b.Amount.getD 0, Category := b.Category.getD "",
              Description := b.Description }
          (response 201 (.txnMsg "Transaction created successfully" transaction),
           db ++ [transaction])
    | "PUT" =>
      match event.body with
      | none => (response 500 (.msg "Internal server error"), db)
      | some b =>
        match transactionSchemaValidate b with
        | some e => (response 400 (.msg e), db)
        | none => (response 500 (.msg "Internal server error"), db)
    | "DELETE" =>
      match event.pathParameters with
      | none => (response 500 (.msg "Internal server error"), db)
      | some transactionId =>
        match db.find? (fun r => r.TransactionID = transactionId) with
        | some r =>
          if r.UserID = userId then
            (response 200 (.msg "Transaction deleted successfully"),
             db.filter (fun x => x.TransactionID ≠ transactionId))
          else (response 404 (.msg "Transaction not found or does not belong to the user"), db)
        | none =>
          (response 404 (.msg "Transaction not found or does not belong to the user"), db)
    | _ => (response 400 (.msg "Unsupported HTTP method"), db))

end Transaction

/-! ## User Lambda (src user handler) -/

namespace User

/-- A stored user item; the timestamp fields are optional because the PUT
upsert creates an item without `CreatedAt`. -/
structure UserRec where
  UserID : String
  Name : String
  Email : String
  CreatedAt : Option String
  UpdatedAt : Option String
  deriving DecidableEq

structure UserBody where
  Name : Option String
  Email : Option String
  otherKeys : List String
  deriving DecidableEq

/-- Model of the Joi email format check: non-empty with an `@`. -/
def isEmailString (s : String) : Bool :=
  decide (s ≠ "") && s.data.contains '@'

/-- `userSchema.validate`: `Name` and `Email` required, `Email` in email
format, no unknown keys. -/
def userSchemaValidate (b : UserBody) : Option String :=
  match b.Name with
  | none => some "Name is required"
  | some n =>
    if n = "" then some "Name is not allowed to be empty"
    else
      match b.Email with
      | none => some "Email is required"
      | some e =>
        if isEmailString e then
          match b.otherKeys with
          | [] => none
          | k :: _ => some (k ++ " is not allowed")
        else some "Email must be a valid email"

inductive ResBody where
  | msg (message : String)
  | item (user : UserRec)
  | userMsg (message : String) (user : UserRec)
  deriving DecidableEq

structure Response where
  statusCode : Nat
  body : ResBody
  deriving DecidableEq

def createResponse (statusCode : Nat) (body : ResBody) : Response := ⟨statusCode, body⟩

structure Event where
  httpMethod : String
  body : Option UserBody
  identity : Option String

/-- `getUser`: get by the caller's own key. -/
def getUser (userId : String) (db : List UserRec) : Response :=
  match db.find? (fun r => r.UserID = userId) with
  | none => createResponse 404 (.msg "User not found")
  | some item => createResponse 200 (.item item)

/-- The user Lambda handler: 401 without identity; GET reads the caller's own
record; POST is a conditional create (409 when the key exists); PUT is an
unconditioned upsert of `Name`, `Email`, `UpdatedAt`; DELETE is an
unconditional delete of the caller's key. -/
def handler (event : Event) (now : String) (db : List UserRec) :
    Response × List UserRec :=
  match event.identity with
  | none => (createResponse 401 (.msg "Unauthorized"), db)
  | some userId =>
    match event.httpMethod with
    | "GET" => (getUser userId db, db)
    | "POST" =>
      match event.body with
      | none => (createResponse 500 (.msg "Internal server error"), db)
      | some b =>
        match userSchemaValidate b with
        | some e => (createResponse 400 (.msg e), db)
        | none =>
          match db.find? (fun r => r.UserID = userId) with
          | some _ => (createResponse 409 (.msg "User already exists"), db)
          | none =>
            let newUser : UserRec :=
              { UserID := userId, Name := b.Name.getD "", Email := b.Email.getD "",
                CreatedAt := some now, UpdatedAt := none }
            (createResponse 201 (.userMsg "User created successfully" newUser),
             db ++ [newUser])
    | "PUT" =>
      match event.body with
      | none => (createResponse 500 (.msg "Internal server error"), db)
      | some b =>
        match userSchemaValidate b with
        | some e => (createResponse 400 (.msg e), db)
        | none =>
          match db.find? (fun r => r.UserID = userId) with
          | some r =>
            let r' := { r with Name := b.Name.getD "", Email := b.Email.getD "",
                               UpdatedAt := some now }
            (createResponse 200 (.userMsg "User updated successfully" r'),
             db.map (fun x => if x.UserID = userId then r' else x))
          | none =>
            let r' : UserRec :=
              { UserID := userId, Name := b.Name.getD "", Email := b.Email.getD "",
                CreatedAt := none, UpdatedAt := some now }
            (createResponse 200 (.userMsg "User updated successfully" r'), db ++ [r'])
    | "DELETE" =>
      (createResponse 200 (.msg "User deleted successfully"),
       db.filter (fun r => r.UserID ≠ userId))
    | _ => (createResponse 400 (.msg "Unsupported HTTP method"), db)

end User

/-! ## Analytics Lambda handler (wraps the pure aggregation engine) -/

namespace Analytics

structure BudgetRow where
  UserID : String
  Category : String
  Amount : Rat
  deriving DecidableEq

structure GoalRow where
  UserID : String
  GoalName : String
  TargetAmount : Rat
  CurrentAmount : Rat
  deriving DecidableEq

structure BudgetProgressRow where
  category : String
  limit : Rat
  spent : Rat
  remaining : Rat
  percentUsed : Rat
  deriving DecidableEq

structure GoalProgressRow where
  name : String
  target : Rat
  current : Rat
  remaining : Rat
  progress : Rat
  deriving DecidableEq

/-- `analyzeBudgetProgress`: per budget, spent over the matching-category
negative transactions; `percentUsed = spent / Amount * 100` (`Rat` division
by zero yields 0 where JS would produce NaN/Infinity — the source validates
`Amount` positive at creation, and the divergence is flagged as an open
question in the specification). -/
def analyzeBudgetProgress (transactions : List Txn) (budgets : List BudgetRow) :
    List BudgetProgressRow :=
  budgets.map (fun budget =>
    let spent := (transactions.filter
        (fun t => t.Category = budget.Category ∧ t.Amount < 0)).foldl
      (fun sum t => sum + jsMathAbs t.Amount) 0
    { category := budget.Category, limit := budget.Amount, spent := spent,
      remaining := budget.Amount - spent,
      percentUsed := spent / budget.Amount * 100 })

/-- `analyzeGoalProgress` (same division remark as `analyzeBudgetProgress`). -/
def analyzeGoalProgress (goals : List GoalRow) : List GoalProgressRow :=
  goals.map (fun goal =>
    { name := goal.GoalName, target := goal.TargetAmount,
      current := goal.CurrentAmount,
      remaining := goal.TargetAmount - goal.CurrentAmount,
      progress := goal.CurrentAmount / goal.TargetAmount * 100 })

structure Summary where
  incomeVsExpenses : IncomeExpenses
  budgetProgress : List BudgetProgressRow
  goalProgress : List GoalProgressRow
  topCategories : List (String × Rat)
  monthlyTrend : List (String × MonthBucket)
  deriving DecidableEq

inductive ResBody where
  | msg (message : String)
  | summary (s : Summary)
  deriving DecidableEq

structure Response where
  statusCode : Nat
  body : ResBody
  deriving DecidableEq

def createResponse (statusCode : Nat) (body : ResBody) : Response := ⟨statusCode, body⟩

structure Event where
  httpMethod : String
  path : String
  identity : Option String

/-- The three tables the analytics handler scans (each scan filtered by
`UserID = :userId`). -/
structure Db where
  transactions : List Txn
  budgets : List BudgetRow
  goals : List GoalRow

/-- The analytics Lambda handler: 401 without identity, then GET
`/analytics/summary` computes the five summaries over the caller's rows;
other paths 404, other methods 400.  Read-only. -/
def handler (event : Event) (db : Db) : Response :=
  match event.identity with
  | none => createResponse 401 (.msg "Unauthorized")
  | some userId =>
    if event.httpMethod = "GET" then
      if event.path = "/analytics/summary" then
        let transactions := db.transactions.filter (fun t => t.UserID = userId)
        let budgets := db.budgets.filter (fun b => b.UserID = userId)
        let goals := db.goals.filter (fun g => g.UserID = userId)
        createResponse 200 (.summary
          { incomeVsExpenses := analyzeIncomeVsExpenses transactions,
            budgetProgress := analyzeBudgetProgress transactions budgets,
            goalProgress := analyzeGoalProgress goals,
            topCategories := analyzeTopCategories transactions,
            monthlyTrend := analyzeMonthlyTrend transactions })
      else createResponse 404 (.msg "Not found")
    else createResponse 400 (.msg "Unsupported HTTP method")

end Analytics

/-! ## Export Lambda (scan, CSV serialization, S3 upload) -/

namespace Export

/-- `Array.prototype.join(sep)` (an absent optional field joins as the empty
string). -/
def joinWith (sep : String) : List String → String
  | [] => ""
  | [x] => x
  | x :: xs => x ++ sep ++ joinWith sep xs

/-- JS number-to-string for a CSV cell; integral amounts render as their
integer digits (the only case exercised here — float formatting of
non-integral values is not modelled further). -/
def ratToString (q : Rat) : String :=
  if q.den = 1 then toString q.num else toString q.num ++ "/" ++ toString q.den

/-- The four cells of one CSV row. -/
def rowFields (t : Transaction.TxnRow) : List String :=
  [t.Date, ratToString t.Amount, t.Category, t.Description.getD ""]

/-- `convertToCSV`: header row plus one row per transaction, cells joined by
commas, rows joined by newlines. -/
def convertToCSV (transactions : List Transaction.TxnRow) : String :=
  joinWith "\n" ((["Date", "Amount", "Category", "Description"]
    :: transactions.map rowFields).map (joinWith ","))

/-- `getAllTransactions`: scan of the transaction table with
`UserID = :userId`. -/
def getAllTransactions (userId : String) (table : List Transaction.TxnRow) :
    List Transaction.TxnRow :=
  table.filter (fun r => r.UserID = userId)

inductive ResBody where
  | msg (message : String)
  | exportOk (message filename : String)
  deriving DecidableEq

structure Response where
  statusCode : Nat
  body : ResBody
  deriving DecidableEq

structure Event where
  identity : Option String

/-- The export Lambda handler: 401 without identity; 404 when the caller's
scan is empty (nothing uploaded); otherwise upload the CSV under
`export_{userId}_{now}.csv` and return 200 with the filename.  `s3` is the
export bucket as a list of (key, body) objects. -/
def handler (event : Event) (table : List Transaction.TxnRow)
    (s3 : List (String × String)) (now : String) :
    Response × List (String × String) :=
  match event.identity with
  | none => (⟨401, .msg "Unauthorized"⟩, s3)
  | some userId =>
    let transactions := getAllTransactions userId table
    if transactions.length = 0 then (⟨404, .msg "No transactions found"⟩, s3)
    else
      let csv := convertToCSV transactions
      let filename := "export_" ++ userId ++ "_" ++ now ++ ".csv"
      (⟨200, .exportOk "Export successful" filename⟩, s3 ++ [(filename, csv)])

theorem joinWith_cons_cons (sep x y : String) (l : List String) :
    joinWith sep (x :: y :: l) = x ++ sep ++ joinWith sep (y :: l) := rfl

end Export

/-! ## The cross-handler claims -/

/-- Claim C2 as stated is false: the budget handler's list branch is an
unfiltered scan, so a caller receives other users' budgets.  With a store
holding one budget owned by bob, a GET list by alice returns it. -/
theorem claim_C2_counterexample :
    (Budget.handler ⟨"GET", "/budget", none, none, some "alice"⟩ "n1"
        [⟨"b1", some "bob", "Food", 100, "monthly"⟩]).1
      = ⟨200, Budget.ResBody.items [⟨"b1", some "bob", "Food", 100, "monthly"⟩]⟩
    ∧ ∃ r ∈ ([⟨"b1", some "bob", "Food", 100, "monthly"⟩] : List Budget.BudgetRec),
        r.UserID ≠ some "alice" := by
  refine ⟨rfl, ⟨"b1", some "bob", "Food", 100, "monthly"⟩, by simp, by simp⟩

/-- Claim C2 (amended): the ownership guarantee holds for the User, Account
and Transaction read paths — their list responses contain only the caller's
(for accounts: active) records and their get-one responses only a record
owned by the caller — but not for the Budget and Goal handlers, whose list
branch returns the entire table and whose get-one branch returns any stored
record regardless of owner. -/
theorem claim_C2_amended :
    (∀ (userId : String) (lek : Option Nat) (lim : Nat) (db : Account.Db)
       (accounts : List Account.AccountRec) (next : Option Nat),
        Account.getAllAccounts userId lek lim db
          = Account.createResponse 200 (.accountsPage accounts next) →
        ∀ r ∈ accounts, r.UserID = userId ∧ r.IsActive = true)
    ∧ (∀ (userId accountId : String) (db : Account.Db) (r : Account.AccountRec),
        Account.getAccount userId accountId db
          = Account.createResponse 200 (.item r) →
        r.UserID = userId ∧ r.IsActive = true)
    ∧ (∀ (userId : String) (db : List User.UserRec) (r : User.UserRec),
        User.getUser userId db = User.createResponse 200 (.item r) →
        r.UserID = userId)
    ∧ (∀ (ev : Transaction.Event) (u nid : String)
         (db db2 : List Transaction.TxnRow) (resp : Transaction.Response),
        ev.identity = some u → ev.httpMethod = "GET" →
        Transaction.handler ev nid db = .ok (resp, db2) →
        (∀ l, resp.body = .items l → ∀ r ∈ l, r.UserID = u)
        ∧ (∀ r, resp.body = .item r → r.UserID = u))
    ∧ (∀ (ev : Budget.Event) (nid : String) (db : List Budget.BudgetRec),
        ev.httpMethod = "GET" → ev.path = "/budget" →
        Budget.handler ev nid db = (⟨200, .items db⟩, db))
    ∧ (∀ (ev : Budget.Event) (nid bid : String) (db : List Budget.BudgetRec)
         (r : Budget.BudgetRec),
        ev.httpMethod = "GET" → ev.path ≠ "/budget" → ev.pathParameters = some bid →
        db.find? (fun x => x.BudgetID = bid) = some r →
        Budget.handler ev nid db = (⟨200, .item r⟩, db))
    ∧ (∀ (ev : Goal.Event) (nid : String) (db : List Goal.GoalRec),
        ev.httpMethod = "GET" → ev.path = "/goal" →
        Goal.handler ev nid db = (⟨200, .items db⟩, db))
    ∧ (∀ (ev : Goal.Event) (nid gid : String) (db : List Goal.GoalRec)
         (r : Goal.GoalRec),
        ev.httpMethod = "GET" → ev.path ≠ "/goal" → ev.pathParameters = some gid →
        db.find? (fun x => x.GoalID = gid) = some r →
        Goal.handler ev nid db = (⟨200, .item r⟩, db)) := by
  refine ⟨?_, ?_, ?_, ?_, ?_, ?_, ?_, ?_⟩
  · intro userId lek lim db accounts next h r hr
    simp only [Account.getAllAccounts, Account.createResponse,
      Account.Response.mk.injEq, Account.ResBody.accountsPage.injEq, true_and] at h
    obtain ⟨hacc, -⟩ := h
    rw [← hacc] at hr
    have := List.of_mem_filter hr
    simp at this
    exact ⟨this.1, this.2⟩
  · intro userId accountId db r h
    simp only [Account.getAccount] at h
    split at h
    · exact absurd h (by simp [Account.createResponse])
    · split at h
      · simp only [Account.createResponse, Account.Response.mk.injEq,
          Account.ResBody.item.injEq, true_and] at h
        subst h
        simp_all
      · exact absurd h (by simp [Account.createResponse])
  · intro userId db r h
    simp only [User.getUser] at h
    cases hf : db.find? (fun x => x.UserID = userId) with
    | none => rw [hf] at h; exact absurd h (by simp [User.createResponse])
    | some item =>
      rw [hf] at h
      simp only [User.createResponse, User.Response.mk.injEq,
        User.ResBody.item.injEq, true_and] at h
      subst h
      have := List.find?_some hf
      simpa using this
  · intro ev u nid db db2 resp hid hm h
    obtain ⟨m, p, pp, b, id⟩ := ev
    simp only at hid hm
    subst hid
    subst hm
    simp only [Transaction.handler, Except.ok.injEq] at h
    repeat' split at h
    all_goals
      rw [Prod.mk.injEq] at h
    all_goals
      obtain ⟨h1, h2⟩ := h
    all_goals
      subst h1
    all_goals
      refine ⟨fun l hl r hr => ?_, fun r hr => ?_⟩ <;>
        simp_all [Transaction.response, List.mem_filter]
    all_goals
      rw [← hl] at hr
    all_goals
      exact of_decide_eq_true (List.mem_filter.mp hr).2
  · intro ev nid db hm hp
    obtain ⟨m, p, pp, b, id⟩ := ev
    simp only at hm hp
    subst hm
    subst hp
    rfl
  · intro ev nid bid db r hm hp hpp hf
    obtain ⟨m, p, pp, b, id⟩ := ev
    simp only at hm hp hpp
    subst hm
    subst hpp
    simp [Budget.handler, hp, hf, Budget.response]
  · intro ev nid db hm hp
    obtain ⟨m, p, pp, b, id⟩ := ev
    simp only at hm hp
    subst hm
    subst hp
    rfl
  · intro ev nid gid db r hm hp hpp hf
    obtain ⟨m, p, pp, b, id⟩ := ev
    simp only at hm hp hpp
    subst hm
    subst hpp
    simp [Goal.handler, hp, hf, Goal.response]

theorem claim_C2_witness :
    (⟨"a1", "bob", "Main", 100, "Savings", true, 1, "T0", "T0"⟩
        : Account.AccountRec).UserID = "bob"
    ∧ (⟨"a1", "bob", "Main", 100, "Savings", true, 1, "T0", "T0"⟩
        : Account.AccountRec).IsActive = true := by
  have h := claim_C2_amended.1 "bob" none 20
    ⟨[⟨"a1", "bob", "Main", 100, "Savings", true, 1, "T0", "T0"⟩], []⟩
    [⟨"a1", "bob", "Main", 100, "Savings", true, 1, "T0", "T0"⟩] none rfl
  exact h _ (by simp)

/-- Claim C3 as stated is false: the budget handler never extracts the caller
identity, so a request without one is served normally (a store read included)
instead of receiving 401. -/
theorem claim_C3_counterexample :
    (Budget.handler ⟨"GET", "/budget", none, none, none⟩ "n1"
        [⟨"b1", some "bob", "Food", 100, "monthly"⟩]).1
      = ⟨200, Budget.ResBody.items [⟨"b1", some "bob", "Food", 100, "monthly"⟩]⟩
    ∧ (200 : Nat) ≠ 401 :=
  ⟨rfl, by decide⟩

/-- Claim C3 (amended): the user, account, analytics and export handlers
return 401 with body message `Unauthorized` and an untouched store when the
caller identity is absent; the budget and goal handlers ignore the identity
entirely and serve the request; the transaction handler reads the identity
outside its try block and throws, producing no HTTP response at all. -/
theorem claim_C3_amended :
    (∀ (ev : Account.Event) (nid aid now : String) (db : Account.Db),
        ev.identity = none →
        Account.handler ev nid aid now db
          = (Account.createResponse 401 (.msg "Unauthorized"), db))
    ∧ (∀ (ev : User.Event) (now : String) (db : List User.UserRec),
        ev.identity = none →
        User.handler ev now db = (User.createResponse 401 (.msg "Unauthorized"), db))
    ∧ (∀ (ev : Analytics.Event) (db : Analytics.Db),
        ev.identity = none →
        Analytics.handler ev db = Analytics.createResponse 401 (.msg "Unauthorized"))
    ∧ (∀ (ev : Export.Event) (table : List Transaction.TxnRow)
         (s3 : List (String × String)) (now : String),
        ev.identity = none →
        Export.handler ev table s3 now = (⟨401, .msg "Unauthorized"⟩, s3))
    ∧ (∀ (ev : Transaction.Event) (nid : String) (db : List Transaction.TxnRow),
        ev.identity = none →
        Transaction.handler ev nid db = .error ())
    ∧ (∀ (ev : Budget.Event) (nid : String) (db : List Budget.BudgetRec)
         (i i' : Option String),
        Budget.handler { ev with identity := i } nid db
          = Budget.handler { ev with identity := i' } nid db)
    ∧ (∀ (ev : Goal.Event) (nid : String) (db : List Goal.GoalRec)
         (i i' : Option String),
        Goal.handler { ev with identity := i } nid db
          = Goal.handler { ev with identity := i' } nid db) := by
  refine ⟨?_, ?_, ?_, ?_, ?_, ?_, ?_⟩
  · intro ev nid aid now db h
    obtain ⟨m, p, pp, qk, ql, b, id⟩ := ev
    simp only at h
    subst h
    rfl
  · intro ev now db h
    obtain ⟨m, b, id⟩ := ev
    simp only at h
    subst h
    rfl
  · intro ev db h
    obtain ⟨m, p, id⟩ := ev
    simp only at h
    subst h
    rfl
  · intro ev table s3 now h
    obtain ⟨id⟩ := ev
    simp only at h
    subst h
    rfl
  · intro ev nid db h
    obtain ⟨m, p, pp, b, id⟩ := ev
    simp only at h
    subst h
    rfl
  · intro ev nid db i i'
    obtain ⟨m, p, pp, b, id⟩ := ev
    rfl
  · intro ev nid db i i'
    obtain ⟨m, p, pp, b, id⟩ := ev
    rfl

theorem claim_C3_witness :
    Analytics.handler ⟨"GET", "/analytics/summary", none⟩ ⟨[], [], []⟩
      = Analytics.createResponse 401 (.msg "Unauthorized") :=
  claim_C3_amended.2.2.1 ⟨"GET", "/analytics/summary", none⟩ ⟨[], [], []⟩ rfl

/-- Claim C8: for an authenticated export request, an empty scan yields 404
with message `No transactions found` and nothing uploaded; a non-empty scan
yields 200 with message `Export successful` and filename
`export_{userId}_{now}.csv`, and uploads under that key a CSV that starts
with the header line `Date,Amount,Category,Description` followed by one row
per scanned transaction. -/
theorem claim_C8_export (u now : String) (table : List Transaction.TxnRow)
    (s3 : List (String × String)) :
    (Export.getAllTransactions u table = [] →
      Export.handler ⟨some u⟩ table s3 now = (⟨404, .msg "No transactions found"⟩, s3))
    ∧ (∀ t ts, Export.getAllTransactions u table = t :: ts →
        Export.handler ⟨some u⟩ table s3 now
          = (⟨200, .exportOk "Export successful" ("export_" ++ u ++ "_" ++ now ++ ".csv")⟩,
             s3 ++ [("export_" ++ u ++ "_" ++ now ++ ".csv", Export.convertToCSV (t :: ts))])
        ∧ Export.convertToCSV (t :: ts)
            = "Date,Amount,Category,Description" ++ "\n"
              ++ Export.joinWith "\n"
                  ((t :: ts).map (fun r => Export.joinWith "," (Export.rowFields r)))
        ∧ ((t :: ts).map (fun r => Export.joinWith "," (Export.rowFields r))).length
            = (t :: ts).length) := by
  constructor
  · intro h
    simp [Export.handler, h]
  · intro t ts h
    refine ⟨?_, ?_, by simp⟩
    · simp [Export.handler, h]
    · simp only [Export.convertToCSV, List.map_cons, List.map_map]
      rw [Export.joinWith_cons_cons]
      rfl

theorem claim_C8_witness :
    (Export.handler ⟨some "u1"⟩ [] [] "T0").1 = ⟨404, .msg "No transactions found"⟩
    ∧ (Export.handler ⟨some "u1"⟩
        [⟨"t1", "u1", "a1", "2021-01-01", 100, "Food", some "Lunch"⟩] [] "T0").1
      = ⟨200, .exportOk "Export successful" "export_u1_T0.csv"⟩ := by
  constructor
  · rw [(claim_C8_export "u1" "T0" [] []).1 rfl]
  · have h := ((claim_C8_export "u1" "T0"
      [⟨"t1", "u1", "a1", "2021-01-01", 100, "Food", some "Lunch"⟩] []).2
      ⟨"t1", "u1", "a1", "2021-01-01", 100, "Food", some "Lunch"⟩ [] rfl).1
    rw [h]
    rfl

end Finance



